import Mathlib

/-!
Verification of the authorization/permission subsystem of the nest-demo
habit-tracking backend: the per-plan participant role hierarchy
(`PlanPermissionService`, `PlanParticipantService`) and the global RBAC
role/permission resolution (`UserContextService`, `UserService`,
`RoleService`).  Database state is modelled as explicit lists of rows;
every service method becomes a pure function over that state, returning
`Except Err` where the source throws typed HTTP exceptions.
-/

namespace NestDemo

/-- Participant roles inside a plan, from the Prisma `ParticipantRole` enum. -/
inductive ParticipantRole
  | viewer
  | member
  | admin
  | owner
deriving DecidableEq, Repr

/-- The `roleLevel` table of `PlanPermissionService`:
owner = 4, admin = 3, member = 2, viewer = 1. -/
def roleLevel : ParticipantRole → Nat
  | ParticipantRole.owner => 4
  | ParticipantRole.admin => 3
  | ParticipantRole.member => 2
  | ParticipantRole.viewer => 1

/-- Kinds of typed exceptions thrown by the services
(NestJS `NotFoundException`, `ForbiddenException`, `ConflictException`,
`BadRequestException`). -/
inductive ErrKind
  | notFound
  | forbidden
  | conflict
  | badRequest
deriving DecidableEq, Repr

/-- A thrown exception: its kind plus its message string. -/
structure Err where
  kind : ErrKind
  msg : String
deriving DecidableEq, Repr

/-- A row of the `User` table (the fields the participant service reads:
id plus the two optional unique identifiers). -/
structure User where
  id : Nat
  user_key : Option String
  phone : Option String
deriving DecidableEq, Repr

/-- A row of the `Plan` table (fields the permission/participant services read). -/
structure Plan where
  id : Nat
  is_public : Bool
  creator : Nat
deriving DecidableEq, Repr

/-- A row of the `PlanParticipant` table (unique on `(plan_id, user_id)`). -/
structure Participant where
  plan_id : Nat
  user_id : Nat
  role : ParticipantRole
deriving DecidableEq, Repr

/-- The slice of database state the plan services touch. -/
structure PlanDB where
  users : List User
  plans : List Plan
  participants : List Participant
deriving DecidableEq, Repr

/-- Lookup of a participant row by the `unique_plan_user` key
(`prisma.planParticipant.findUnique`). -/
def findParticipant (ps : List Participant) (planId userId : Nat) : Option Participant :=
  ps.find? (fun p => p.plan_id == planId && p.user_id == userId)

/-- `PlanPermissionService.getUserRole`: the participant's role, or `none`. -/
def getUserRole (db : PlanDB) (planId userId : Nat) : Option ParticipantRole :=
  (findParticipant db.participants planId userId).map Participant.role

/-- `PlanPermissionService.isParticipant`. -/
def isParticipant (db : PlanDB) (planId userId : Nat) : Bool :=
  (getUserRole db planId userId).isSome

/-- `PlanPermissionService.hasRole`: participant present and
`roleLevel[userRole] >= roleLevel[requiredRole]`. -/
def hasRole (db : PlanDB) (planId userId : Nat) (requiredRole : ParticipantRole) : Bool :=
  match getUserRole db planId userId with
  | none => false
  | some userRole => decide (roleLevel requiredRole ≤ roleLevel userRole)

/-- `PlanPermissionService.canInviteMembers`: at least `admin`. -/
def canInviteMembers (db : PlanDB) (planId userId : Nat) : Bool :=
  hasRole db planId userId ParticipantRole.admin

/-- `PlanPermissionService.canChangeRole`: only `owner`. -/
def canChangeRole (db : PlanDB) (planId userId : Nat) : Bool :=
  hasRole db planId userId ParticipantRole.owner

/-- `PlanPermissionService.canRemoveMember`: both operator and target must be
participants; the operator needs at least `admin`; an `owner` may remove
anyone except another `owner`; otherwise the operator's level must be
strictly greater than the target's. -/
def canRemoveMember (db : PlanDB) (planId operatorId targetUserId : Nat) : Bool :=
  match getUserRole db planId operatorId, getUserRole db planId targetUserId with
  | some operatorRole, some targetRole =>
      if roleLevel operatorRole < roleLevel ParticipantRole.admin then
        false
      else if operatorRole = ParticipantRole.owner then
        decide (targetRole ≠ ParticipantRole.owner)
      else
        decide (roleLevel targetRole < roleLevel operatorRole)
  | _, _ => false

/-- `PlanParticipantService.findUserByKeyOrPhone`: resolve a user by
`user_key` (preferred) or `phone`; `BadRequest` when neither is given,
`NotFound` when the lookup misses. -/
def findUserByKeyOrPhone (db : PlanDB) (user_key phone : Option String) : Except Err User :=
  match user_key, phone with
  | none, none => Except.error ⟨ErrKind.badRequest, "Must provide user_key or phone"⟩
  | some k, _ =>
      match db.users.find? (fun u => u.user_key == some k) with
      | some u => Except.ok u
      | none => Except.error ⟨ErrKind.notFound, "User with user_key not found"⟩
  | none, some p =>
      match db.users.find? (fun u => u.phone == some p) with
      | some u => Except.ok u
      | none => Except.error ⟨ErrKind.notFound, "User with phone not found"⟩

/-- `prisma.planParticipant.update` on the `unique_plan_user` key:
set the role of the matching row, leave every other row unchanged. -/
def setParticipantRole (ps : List Participant) (planId userId : Nat)
    (r : ParticipantRole) : List Participant :=
  ps.map (fun p =>
    if p.plan_id == planId && p.user_id == userId then { p with role := r } else p)

/-- `prisma.plan.update` setting the `creator` field of one plan. -/
def setPlanCreator (ps : List Plan) (planId newCreator : Nat) : List Plan :=
  ps.map (fun p => if p.id == planId then { p with creator := newCreator } else p)

/-- `prisma.plan.findUnique` projected to the `creator` column. -/
def planCreator (db : PlanDB) (planId : Nat) : Option Nat :=
  (db.plans.find? (fun p => p.id == planId)).map Plan.creator

/-- `PlanParticipantService.inviteParticipant`: permission check
(`canInviteMembers`), target resolution, duplicate-participant check, the
owner-only gate for explicit `admin`/`owner` roles, then row creation with
the requested role (defaulting to `member`). -/
def inviteParticipant (db : PlanDB) (planId inviterId : Nat)
    (user_key phone : Option String) (role : Option ParticipantRole) :
    Except Err PlanDB :=
  if !canInviteMembers db planId inviterId then
    Except.error ⟨ErrKind.forbidden, "You do not have permission to invite members"⟩
  else
    match findUserByKeyOrPhone db user_key phone with
    | Except.error e => Except.error e
    | Except.ok targetUser =>
      if (findParticipant db.participants planId targetUser.id).isSome then
        Except.error ⟨ErrKind.conflict, "User is already a participant"⟩
      else
        let created : PlanDB :=
          { db with participants :=
              db.participants ++
                [{ plan_id := planId, user_id := targetUser.id,
                   role := role.getD ParticipantRole.member }] }
        if role = some ParticipantRole.admin ∨ role = some ParticipantRole.owner then
          if getUserRole db planId inviterId = some ParticipantRole.owner then
            Except.ok created
          else
            Except.error ⟨ErrKind.forbidden, "Only owner can invite admin or owner"⟩
        else
          Except.ok created

/-- `PlanParticipantService.removeParticipant`: resolve the target, check
`canRemoveMember`, reject self-removal, look up the participant row, refuse
to remove an `owner`, then delete the row. -/
def removeParticipant (db : PlanDB) (planId : Nat) (user_key phone : Option String)
    (operatorId : Nat) : Except Err PlanDB :=
  match findUserByKeyOrPhone db user_key phone with
  | Except.error e => Except.error e
  | Except.ok targetUser =>
    if !canRemoveMember db planId operatorId targetUser.id then
      Except.error ⟨ErrKind.forbidden, "You do not have permission to remove this participant"⟩
    else if targetUser.id = operatorId then
      Except.error ⟨ErrKind.conflict, "Cannot remove yourself. Use leave instead."⟩
    else
      match findParticipant db.participants planId targetUser.id with
      | none => Except.error ⟨ErrKind.notFound, "Participant not found"⟩
      | some participant =>
        if participant.role = ParticipantRole.owner then
          Except.error ⟨ErrKind.forbidden, "Cannot remove plan owner"⟩
        else
          let remaining := db.participants.filter
            (fun p => !(p.plan_id == planId && p.user_id == targetUser.id))
          Except.ok { db with participants := remaining }

/-- `PlanParticipantService.updateParticipantRole`: `canChangeRole` gate,
target resolution, participant lookup, then the three denial rules
(self-change is a `Conflict`; changing an `owner` and assigning `owner`
are `Forbidden`), finally the role update. -/
def updateParticipantRole (db : PlanDB) (planId operatorId : Nat)
    (user_key phone : Option String) (newRole : ParticipantRole) :
    Except Err PlanDB :=
  if !canChangeRole db planId operatorId then
    Except.error ⟨ErrKind.forbidden, "Only owner can change participant roles"⟩
  else
    match findUserByKeyOrPhone db user_key phone with
    | Except.error e => Except.error e
    | Except.ok targetUser =>
      match findParticipant db.participants planId targetUser.id with
      | none => Except.error ⟨ErrKind.notFound, "Participant not found"⟩
      | some participant =>
        if targetUser.id = operatorId then
          Except.error ⟨ErrKind.conflict, "Cannot change your own role"⟩
        else if participant.role = ParticipantRole.owner then
          Except.error
            ⟨ErrKind.forbidden, "Cannot change owner role. Use transfer ownership instead."⟩
        else if newRole = ParticipantRole.owner then
          Except.error
            ⟨ErrKind.forbidden, "Cannot assign owner role. Use transfer ownership instead."⟩
        else
          Except.ok { db with participants :=
            setParticipantRole db.participants planId targetUser.id newRole }

/-- `PlanParticipantService.transferOwnership`: the caller must currently be
the plan's `owner`, the new owner must be a participant; inside one
transaction the caller is demoted to `admin`, the target promoted to
`owner`, and `Plan.creator` set to the target (the three writes are applied
in that order). -/
def transferOwnership (db : PlanDB) (planId currentOwnerId newOwnerId : Nat) :
    Except Err PlanDB :=
  match findParticipant db.participants planId currentOwnerId with
  | none => Except.error ⟨ErrKind.forbidden, "Only owner can transfer ownership"⟩
  | some currentOwner =>
    if currentOwner.role ≠ ParticipantRole.owner then
      Except.error ⟨ErrKind.forbidden, "Only owner can transfer ownership"⟩
    else
      match findParticipant db.participants planId newOwnerId with
      | none => Except.error ⟨ErrKind.notFound, "New owner must be a participant of the plan"⟩
      | some _ =>
        let step1 := setParticipantRole db.participants planId currentOwnerId
          ParticipantRole.admin
        let step2 := setParticipantRole step1 planId newOwnerId ParticipantRole.owner
        Except.ok { db with
          participants := step2,
          plans := setPlanCreator db.plans planId newOwnerId }

/-- The kind of the error a service call produced, `none` on success. -/
def resultErrKind {α : Type} : Except Err α → Option ErrKind
  | Except.error e => some e.kind
  | Except.ok _ => none

/-- A row of the global `Role` table. -/
structure Role where
  id : Nat
  name : String
  code : String
  is_system : Bool
deriving DecidableEq, Repr

/-- A row of the global `Permission` table. -/
structure Permission where
  id : Nat
  name : String
  code : String
deriving DecidableEq, Repr

/-- A row of the `RolePermission` join table (unique on the pair). -/
structure RolePermission where
  role_id : Nat
  permission_id : Nat
deriving DecidableEq, Repr

/-- A row of the `UserRole` join table (unique on the pair). -/
structure UserRole where
  user_id : Nat
  role_id : Nat
deriving DecidableEq, Repr

/-- The slice of database state the RBAC services touch. -/
structure AuthDB where
  roles : List Role
  permissions : List Permission
  rolePermissions : List RolePermission
  userRoles : List UserRole
deriving DecidableEq, Repr

/-- One `Set.add` step of `getUserPermissions` (JS `Set` keeps insertion
order and drops duplicates). -/
def setAdd (s : List String) (x : String) : List String :=
  if x ∈ s then s else s ++ [x]

/-- The permission codes reachable from one role through the
`role_permissions` include (each join row resolved to its permission). -/
def rolePermCodes (db : AuthDB) (roleId : Nat) : List String :=
  (db.rolePermissions.filter (fun rp => rp.role_id == roleId)).filterMap
    (fun rp => (db.permissions.find? (fun pm => pm.id == rp.permission_id)).map
      Permission.code)

/-- `UserContextService.getUserPermissions`: walk the user's roles, add every
role's permission codes to a set, return it as a list. -/
def getUserPermissions (db : AuthDB) (userId : Nat) : List String :=
  (db.userRoles.filter (fun ur => ur.user_id == userId)).foldl
    (fun acc ur => (rolePermCodes db ur.role_id).foldl setAdd acc) []

/-- The role ids currently assigned to a user. -/
def userRoleIds (db : AuthDB) (userId : Nat) : List Nat :=
  (db.userRoles.filter (fun ur => ur.user_id == userId)).map UserRole.role_id

/-- The permission ids currently attached to a role. -/
def rolePermIds (db : AuthDB) (roleId : Nat) : List Nat :=
  (db.rolePermissions.filter (fun rp => rp.role_id == roleId)).map
    RolePermission.permission_id

/-- `UserService._assignRolesByUserId`: resolve the codes (failing `NotFound`
with the codes it could not find when the counts differ), drop the roles the
user already holds, fail `Conflict` when nothing is left, otherwise insert
the new pairs and return the newly assigned roles. -/
def assignRolesByUserId (db : AuthDB) (userId : Nat) (roleCodes : List String) :
    Except Err (AuthDB × List Role) :=
  let roles := db.roles.filter (fun r => roleCodes.contains r.code)
  if roles.length ≠ roleCodes.length then
    let foundCodes := roles.map Role.code
    let notFoundCodes := roleCodes.filter (fun c => !foundCodes.contains c)
    Except.error ⟨ErrKind.notFound,
      "Roles not found: " ++ String.intercalate ", " notFoundCodes⟩
  else
    let roleIds := roles.map Role.id
    let existingRoleIds := userRoleIds db userId
    let newRoleIds := roleIds.filter (fun i => !existingRoleIds.contains i)
    if newRoleIds.length = 0 then
      Except.error ⟨ErrKind.conflict, "All roles are already assigned to this user"⟩
    else
      let newRows := newRoleIds.map
        (fun roleId => { user_id := userId, role_id := roleId : UserRole })
      let db' := { db with userRoles := db.userRoles ++ newRows }
      Except.ok (db', roles.filter (fun r => newRoleIds.contains r.id))

/-- `UserService._removeRoleByUserId`: resolve the code, check the user holds
the role, refuse (`Conflict`) when it is the user's only role, otherwise
delete the single join row. -/
def removeRoleByUserId (db : AuthDB) (userId : Nat) (roleCode : String) :
    Except Err (AuthDB × Role) :=
  match db.roles.find? (fun r => r.code == roleCode) with
  | none => Except.error ⟨ErrKind.notFound, "Role with code " ++ roleCode ++ " not found"⟩
  | some role =>
    match db.userRoles.find? (fun ur => ur.user_id == userId && ur.role_id == role.id) with
    | none => Except.error ⟨ErrKind.notFound, "User does not have role: " ++ role.name⟩
    | some _ =>
      if (db.userRoles.filter (fun ur => ur.user_id == userId)).length = 1 then
        Except.error ⟨ErrKind.conflict,
          "Cannot remove the last role. User must have at least one role."⟩
      else
        Except.ok ({ db with userRoles := db.userRoles.eraseP (fun ur => ur.user_id == userId && ur.role_id == role.id) }, role)

/-- `UserService._updateUserRolesByUserId`: refuse an empty list (`Conflict`),
resolve all codes (failing `NotFound` with the missing ones), then in one
transaction delete all of the user's role rows and insert the new set,
returning the read-back roles. -/
def updateUserRolesByUserId (db : AuthDB) (userId : Nat) (roleCodes : List String) :
    Except Err (AuthDB × List Role) :=
  if roleCodes.length = 0 then
    Except.error ⟨ErrKind.conflict, "User must have at least one role"⟩
  else
    let roles := db.roles.filter (fun r => roleCodes.contains r.code)
    if roles.length ≠ roleCodes.length then
      let foundCodes := roles.map Role.code
      let notFoundCodes := roleCodes.filter (fun c => !foundCodes.contains c)
      Except.error ⟨ErrKind.notFound,
        "Roles not found: " ++ String.intercalate ", " notFoundCodes⟩
    else
      let roleIds := roles.map Role.id
      let kept := db.userRoles.filter (fun ur => !(ur.user_id == userId))
      let newRows := roleIds.map
        (fun roleId => { user_id := userId, role_id := roleId : UserRole })
      let db' := { db with userRoles := kept ++ newRows }
      let readBack := (db'.userRoles.filter (fun ur => ur.user_id == userId)).filterMap
        (fun ur => db'.roles.find? (fun r => r.id == ur.role_id))
      Except.ok (db', readBack)

/-- `RoleService.updateRolePermissions`: look the role up by id, then — the
permission-code validation being commented out in the source — delete every
old `RolePermission` row of the role and insert one row per *existing*
permission whose code appears in the request; unknown codes are silently
dropped. -/
def updateRolePermissions (db : AuthDB) (roleId : Nat) (permissionCodes : List String) :
    Except Err AuthDB :=
  match db.roles.find? (fun r => r.id == roleId) with
  | none => Except.error ⟨ErrKind.notFound,
      "Role with ID " ++ toString roleId ++ " not found"⟩
  | some _role =>
    let newPermissions := db.permissions.filter
      (fun pm => permissionCodes.contains pm.code)
    let kept := db.rolePermissions.filter (fun rp => !(rp.role_id == roleId))
    Except.ok { db with rolePermissions := kept ++
      newPermissions.map (fun pm => { role_id := roleId, permission_id := pm.id }) }

/-- Model of the JS `toLowerCase` call on ASCII role names, written over the
character list so it evaluates in the kernel. -/
def lowerAscii (s : String) : String :=
  String.mk (s.data.map (fun c =>
    if 65 ≤ c.toNat ∧ c.toNat ≤ 90 then Char.ofNat (c.toNat + 32) else c))

/-- `RoleService.createRole`: reject a clashing name/code (`Conflict`),
reject unknown permission codes with a `BadRequest` that lists them, then
create the role (code = lower-cased name) with its permission rows. -/
def createRole (db : AuthDB) (name : String) (permissionCodes : List String)
    (isSystem : Bool) : Except Err (AuthDB × Role) :=
  match db.roles.find? (fun r => r.name == name || r.code == lowerAscii name) with
  | some _ => Except.error ⟨ErrKind.conflict, "Role name or code already exists"⟩
  | none =>
    let permissions := db.permissions.filter (fun pm => permissionCodes.contains pm.code)
    let foundPermissionCodes := permissions.map Permission.code
    let notFoundPermissions := permissionCodes.filter
      (fun c => !foundPermissionCodes.contains c)
    if notFoundPermissions.length ≠ 0 then
      Except.error ⟨ErrKind.badRequest,
        "Permissions not found: " ++ String.intercalate ", " notFoundPermissions⟩
    else
      let newId := (db.roles.map Role.id).foldr max 0 + 1
      let role : Role :=
        { id := newId, name := name, code := lowerAscii name, is_system := isSystem }
      let newRolePerms := permissions.map
        (fun pm => { role_id := newId, permission_id := pm.id : RolePermission })
      let db' := { db with
        roles := db.roles ++ [role],
        rolePermissions := db.rolePermissions ++ newRolePerms }
      Except.ok (db', role)

/-- A concrete RBAC database used by witnesses and counterexamples: user 1
holds role `admin` only, user 2 holds `editor` and `viewer`, user 3 holds
nothing; `editor` grants `plan:read` and `plan:update`. -/
def exAuth : AuthDB :=
  { roles := [{ id := 1, name := "Admin", code := "admin", is_system := true },
              { id := 2, name := "Editor", code := "editor", is_system := false },
              { id := 3, name := "Viewer", code := "viewer", is_system := false }],
    permissions := [{ id := 1, name := "Plan Read", code := "plan:read" },
                    { id := 2, name := "Plan Update", code := "plan:update" },
                    { id := 3, name := "User Delete", code := "user:delete" }],
    rolePermissions := [{ role_id := 1, permission_id := 1 },
                        { role_id := 1, permission_id := 2 },
                        { role_id := 1, permission_id := 3 },
                        { role_id := 2, permission_id := 1 },
                        { role_id := 2, permission_id := 2 }],
    userRoles := [{ user_id := 1, role_id := 1 },
                  { user_id := 2, role_id := 2 },
                  { user_id := 2, role_id := 3 }] }

/-- A concrete database used by witnesses and counterexamples: plan 10 is
owned by user 1, with user 2 an `admin` and user 3 a `member`. -/
def exDB : PlanDB :=
  { users := [{ id := 1, user_key := some "k1", phone := none },
              { id := 2, user_key := some "k2", phone := none },
              { id := 3, user_key := some "k3", phone := some "p3" },
              { id := 4, user_key := some "k4", phone := none }],
    plans := [{ id := 10, is_public := true, creator := 1 }],
    participants := [{ plan_id := 10, user_id := 1, role := ParticipantRole.owner },
                     { plan_id := 10, user_id := 2, role := ParticipantRole.admin },
                     { plan_id := 10, user_id := 3, role := ParticipantRole.member }] }

end NestDemo

namespace NestDemo

/-- A found participant row carries exactly the keys it was looked up by. -/
theorem findParticipant_some_keys {ps : List Participant} {planId userId : Nat}
    {p : Participant} (h : findParticipant ps planId userId = some p) :
    p.plan_id = planId ∧ p.user_id = userId := by
  have hp := List.find?_some h
  simp only [Bool.and_eq_true, beq_iff_eq] at hp
  exact hp

/-- `getUserRole` unfolds to a successful `findParticipant` with that role. -/
theorem getUserRole_eq_some {db : PlanDB} {planId userId : Nat} {r : ParticipantRole} :
    getUserRole db planId userId = some r ↔
      ∃ p, findParticipant db.participants planId userId = some p ∧ p.role = r := by
  simp [getUserRole, Option.map_eq_some']

/-- Updating a participant's role rewrites `findParticipant` pointwise. -/
theorem findParticipant_setParticipantRole (ps : List Participant)
    (planId userId : Nat) (r : ParticipantRole) (planId' userId' : Nat) :
    findParticipant (setParticipantRole ps planId userId r) planId' userId' =
      (findParticipant ps planId' userId').map (fun p =>
        if p.plan_id == planId && p.user_id == userId then { p with role := r } else p) := by
  unfold findParticipant setParticipantRole
  rw [List.find?_map]
  have hfun :
      ((fun p : Participant => p.plan_id == planId' && p.user_id == userId') ∘
        (fun p => if p.plan_id == planId && p.user_id == userId
          then { p with role := r } else p)) =
      (fun p : Participant => p.plan_id == planId' && p.user_id == userId') := by
    funext p
    by_cases h : (p.plan_id == planId && p.user_id == userId) = true <;>
      simp [Function.comp, h]
  rw [hfun]

/-- Updating a plan's creator rewrites the plan lookup pointwise. -/
theorem find?_setPlanCreator (ps : List Plan) (planId c planId' : Nat) :
    (setPlanCreator ps planId c).find? (fun p => p.id == planId') =
      (ps.find? (fun p => p.id == planId')).map (fun p =>
        if p.id == planId then { p with creator := c } else p) := by
  unfold setPlanCreator
  rw [List.find?_map]
  have hfun :
      ((fun p : Plan => p.id == planId') ∘
        (fun p => if p.id == planId then { p with creator := c } else p)) =
      (fun p : Plan => p.id == planId') := by
    funext p
    by_cases h : (p.id == planId) = true <;> simp [Function.comp, h]
  rw [hfun]

/-- C1: `canRemoveMember` returns `true` exactly when operator and target are
both participants, the operator is at least `admin`, and either the operator
is `owner` and the target is not, or the operator is `admin` with strictly
greater level than the target. -/
theorem canRemoveMember_characterization (db : PlanDB) (planId operatorId targetUserId : Nat) :
    canRemoveMember db planId operatorId targetUserId = true ↔
      ∃ opRole tgtRole,
        getUserRole db planId operatorId = some opRole ∧
        getUserRole db planId targetUserId = some tgtRole ∧
        roleLevel ParticipantRole.admin ≤ roleLevel opRole ∧
        ((opRole = ParticipantRole.owner ∧ tgtRole ≠ ParticipantRole.owner) ∨
         (opRole = ParticipantRole.admin ∧ roleLevel tgtRole < roleLevel opRole)) := by
  unfold canRemoveMember
  cases hop : getUserRole db planId operatorId with
  | none => simp
  | some opRole =>
    cases htg : getUserRole db planId targetUserId with
    | none => simp
    | some tgtRole =>
      simp only [Option.some.injEq]
      constructor
      · intro h
        refine ⟨opRole, tgtRole, rfl, rfl, ?_⟩
        cases opRole <;> cases tgtRole <;> simp_all [roleLevel]
      · rintro ⟨o, t, ho, ht, h⟩
        subst ho; subst ht
        cases opRole <;> cases tgtRole <;> simp_all [roleLevel]

/-- C2 (counterexample): when the caller transfers ownership to themselves —
the caller holds `owner` and is trivially a participant, so the claim's
hypotheses hold — the operation succeeds but the caller's role afterwards is
`owner`, not `admin`: the promotion step overwrites the demotion step. -/
theorem transferOwnership_self_counterexample :
    getUserRole exDB 10 1 = some ParticipantRole.owner ∧
    isParticipant exDB 10 1 = true ∧
    resultErrKind (transferOwnership exDB 10 1 1) = none ∧
    (transferOwnership exDB 10 1 1).map (fun db' => getUserRole db' 10 1) ≠
      Except.ok (some ParticipantRole.admin) := by
  refine ⟨rfl, rfl, rfl, ?_⟩
  have hres : (transferOwnership exDB 10 1 1).map (fun db' => getUserRole db' 10 1) =
      Except.ok (some ParticipantRole.owner) := rfl
  rw [hres]
  simp

/-- C2 (amended): if the caller holds `owner`, the target is a participant,
the plan row exists, and the target is distinct from the caller, then
`transferOwnership` succeeds and in the resulting state the caller is
`admin`, the target is `owner`, and `Plan.creator` is the target's id (the
model applies the three writes as one state change, mirroring the single
`$transaction`). -/
theorem transferOwnership_correct (db : PlanDB) (planId callerId targetId : Nat)
    (hne : callerId ≠ targetId)
    (hcaller : getUserRole db planId callerId = some ParticipantRole.owner)
    (htarget : isParticipant db planId targetId = true)
    (hplan : (db.plans.find? (fun p => p.id == planId)).isSome = true) :
    ∃ db', transferOwnership db planId callerId targetId = Except.ok db' ∧
      getUserRole db' planId callerId = some ParticipantRole.admin ∧
      getUserRole db' planId targetId = some ParticipantRole.owner ∧
      planCreator db' planId = some targetId := by
  obtain ⟨p, hp, hprole⟩ := getUserRole_eq_some.mp hcaller
  obtain ⟨hppid, hpuid⟩ := findParticipant_some_keys hp
  obtain ⟨q, hq⟩ : ∃ q, findParticipant db.participants planId targetId = some q := by
    unfold isParticipant getUserRole at htarget
    cases hq : findParticipant db.participants planId targetId with
    | none => rw [hq] at htarget; simp at htarget
    | some q => exact ⟨q, rfl⟩
  obtain ⟨hqpid, hquid⟩ := findParticipant_some_keys hq
  obtain ⟨pl, hpl⟩ := Option.isSome_iff_exists.mp hplan
  have hplid : pl.id = planId := by
    have := List.find?_some hpl
    simpa using this
  unfold transferOwnership
  rw [hp, hq]
  simp only [hprole, ne_eq, not_true_eq_false, if_false]
  refine ⟨_, rfl, ?_, ?_, ?_⟩
  · unfold getUserRole
    rw [findParticipant_setParticipantRole, findParticipant_setParticipantRole, hp]
    simp [hppid, hpuid, hne, Ne.symm hne]
  · unfold getUserRole
    rw [findParticipant_setParticipantRole, findParticipant_setParticipantRole, hq]
    simp [hqpid, hquid, Ne.symm hne]
  · unfold planCreator
    rw [find?_setPlanCreator, hpl]
    simp [hplid]

/-- C2 (witness): transferring plan 10 from owner 1 to admin 2 in the
concrete database. -/
theorem transferOwnership_correct_witness :
    ∃ db', transferOwnership exDB 10 1 2 = Except.ok db' ∧
      getUserRole db' 10 1 = some ParticipantRole.admin ∧
      getUserRole db' 10 2 = some ParticipantRole.owner ∧
      planCreator db' 10 = some 2 :=
  transferOwnership_correct exDB 10 1 2 (by decide) (by rfl) (by rfl) (by rfl)

/-- C5 (counterexample): the plan's owner changing their own role is denied
with a `Conflict` error, not the `Forbidden` the claim states. -/
theorem updateParticipantRole_self_counterexample :
    getUserRole exDB 10 1 = some ParticipantRole.owner ∧
    updateParticipantRole exDB 10 1 (some "k1") none ParticipantRole.member =
      Except.error ⟨ErrKind.conflict, "Cannot change your own role"⟩ ∧
    resultErrKind (updateParticipantRole exDB 10 1 (some "k1") none ParticipantRole.member) ≠
      some ErrKind.forbidden := by
  refine ⟨rfl, rfl, ?_⟩
  have h : resultErrKind (updateParticipantRole exDB 10 1 (some "k1") none
      ParticipantRole.member) = some ErrKind.conflict := rfl
  rw [h]
  simp

/-- C5 (amended): with an `owner` operator, `updateParticipantRole` denies
self-targeting with a `Conflict`, denies changing a participant who holds
`owner` with a `Forbidden`, and denies assigning the `owner` role with a
`Forbidden`; every denial returns an error, so the stored role is unchanged. -/
theorem updateParticipantRole_denials (db : PlanDB) (planId opId : Nat)
    (ukey uphone : Option String) (newRole : ParticipantRole) (tuser : User)
    (hres : findUserByKeyOrPhone db ukey uphone = Except.ok tuser)
    (hop : getUserRole db planId opId = some ParticipantRole.owner) :
    (tuser.id = opId →
      updateParticipantRole db planId opId ukey uphone newRole =
        Except.error ⟨ErrKind.conflict, "Cannot change your own role"⟩) ∧
    (tuser.id ≠ opId → getUserRole db planId tuser.id = some ParticipantRole.owner →
      updateParticipantRole db planId opId ukey uphone newRole =
        Except.error
          ⟨ErrKind.forbidden, "Cannot change owner role. Use transfer ownership instead."⟩) ∧
    (∀ r, tuser.id ≠ opId → getUserRole db planId tuser.id = some r →
      r ≠ ParticipantRole.owner → newRole = ParticipantRole.owner →
      updateParticipantRole db planId opId ukey uphone newRole =
        Except.error
          ⟨ErrKind.forbidden, "Cannot assign owner role. Use transfer ownership instead."⟩) := by
  have hcc : canChangeRole db planId opId = true := by
    unfold canChangeRole hasRole
    rw [hop]
    simp [roleLevel]
  refine ⟨?_, ?_, ?_⟩
  · intro hid
    obtain ⟨p, hp, hprole⟩ := getUserRole_eq_some.mp hop
    have hfp : findParticipant db.participants planId tuser.id = some p := by
      rw [hid]; exact hp
    unfold updateParticipantRole
    rw [hcc, hres]
    simp [hfp, hp, hid]
  · intro hid htgt
    obtain ⟨q, hq, hqrole⟩ := getUserRole_eq_some.mp htgt
    unfold updateParticipantRole
    rw [hcc, hres]
    simp [hq, hid, hqrole]
  · intro r hid htgt hrne hnew
    obtain ⟨q, hq, hqrole⟩ := getUserRole_eq_some.mp htgt
    unfold updateParticipantRole
    rw [hcc, hres]
    simp [hq, hid, hqrole, hrne, hnew]

/-- C5 (witness): owner 1 of plan 10 trying to promote admin 2 to `owner`
through the generic role-update path is denied with `Forbidden`. -/
theorem updateParticipantRole_denials_witness :
    updateParticipantRole exDB 10 1 (some "k2") none ParticipantRole.owner =
      Except.error
        ⟨ErrKind.forbidden, "Cannot assign owner role. Use transfer ownership instead."⟩ :=
  (updateParticipantRole_denials exDB 10 1 (some "k2") none ParticipantRole.owner
    { id := 2, user_key := some "k2", phone := none } rfl rfl).2.2
    ParticipantRole.admin (by decide) rfl (by decide) rfl

/-- C8: with a resolvable target who is not yet a participant, an inviter
holding exactly `admin` is denied with `Forbidden` when requesting an
explicit `admin` or `owner` role (no participant is added), while an
`owner` inviter succeeds with any requested role. -/
theorem inviteParticipant_elevation (db : PlanDB) (planId inviterId : Nat)
    (ukey uphone : Option String) (tuser : User)
    (hres : findUserByKeyOrPhone db ukey uphone = Except.ok tuser)
    (hnot : getUserRole db planId tuser.id = none) :
    (getUserRole db planId inviterId = some ParticipantRole.admin →
      ∀ r, r = ParticipantRole.admin ∨ r = ParticipantRole.owner →
        inviteParticipant db planId inviterId ukey uphone (some r) =
          Except.error ⟨ErrKind.forbidden, "Only owner can invite admin or owner"⟩) ∧
    (getUserRole db planId inviterId = some ParticipantRole.owner →
      ∀ ro : Option ParticipantRole, ∃ db',
        inviteParticipant db planId inviterId ukey uphone ro = Except.ok db' ∧
        getUserRole db' planId tuser.id = some (ro.getD ParticipantRole.member)) := by
  have hfp : findParticipant db.participants planId tuser.id = none := by
    unfold getUserRole at hnot
    exact Option.map_eq_none'.mp hnot
  constructor
  · intro hinv r hr
    have hcan : canInviteMembers db planId inviterId = true := by
      unfold canInviteMembers hasRole
      rw [hinv]
      simp [roleLevel]
    unfold inviteParticipant
    rw [hcan, hres]
    rcases hr with h | h <;> subst h <;> simp [hfp, hinv]
  · intro hinv ro
    have hcan : canInviteMembers db planId inviterId = true := by
      unfold canInviteMembers hasRole
      rw [hinv]
      simp [roleLevel]
    have hlook : ∀ rr : ParticipantRole,
        getUserRole { db with participants := db.participants ++
            [{ plan_id := planId, user_id := tuser.id, role := rr }] } planId tuser.id =
          some rr := by
      intro rr
      unfold getUserRole findParticipant
      rw [List.find?_append]
      unfold findParticipant at hfp
      rw [hfp]
      simp
    refine ⟨_, ?_, hlook (ro.getD ParticipantRole.member)⟩
    unfold inviteParticipant
    rw [hcan, hres]
    by_cases helev : (ro = some ParticipantRole.admin ∨ ro = some ParticipantRole.owner) <;>
      simp [hfp, helev, hinv]

/-- With operator equal to target, both lookups return the same role, and
every branch of `canRemoveMember` then answers `false`. -/
theorem canRemoveMember_self (db : PlanDB) (planId uid : Nat) :
    canRemoveMember db planId uid uid = false := by
  unfold canRemoveMember
  cases h : getUserRole db planId uid with
  | none => rfl
  | some r => cases r <;> simp [roleLevel]

/-- `findUserByKeyOrPhone` only ever fails with `BadRequest` or `NotFound`. -/
theorem findUserByKeyOrPhone_error_kind (db : PlanDB) (ukey uphone : Option String)
    (e : Err) (h : findUserByKeyOrPhone db ukey uphone = Except.error e) :
    e.kind = ErrKind.badRequest ∨ e.kind = ErrKind.notFound := by
  unfold findUserByKeyOrPhone at h
  split at h
  · injection h with h1
    left
    rw [← h1]
  · split at h
    · simp at h
    · injection h with h1
      right
      rw [← h1]
  · split at h
    · simp at h
    · injection h with h1
      right
      rw [← h1]

/-- C9: `canRemoveMember` is always `false` when operator and target
coincide, so a self-removal attempt through `removeParticipant` is rejected
at the permission check with the `Forbidden` error, and the later dedicated
self-removal `Conflict` branch can never be the outcome of any call. -/
theorem removeParticipant_never_self (db : PlanDB) (planId : Nat)
    (ukey uphone : Option String) (opId : Nat) :
    canRemoveMember db planId opId opId = false ∧
    (∀ tuser : User, findUserByKeyOrPhone db ukey uphone = Except.ok tuser →
      tuser.id = opId →
      removeParticipant db planId ukey uphone opId =
        Except.error
          ⟨ErrKind.forbidden, "You do not have permission to remove this participant"⟩) ∧
    removeParticipant db planId ukey uphone opId ≠
      Except.error ⟨ErrKind.conflict, "Cannot remove yourself. Use leave instead."⟩ := by
  refine ⟨canRemoveMember_self db planId opId, ?_, ?_⟩
  · intro tuser hres hid
    have hcr : canRemoveMember db planId opId tuser.id = false := by
      rw [hid]; exact canRemoveMember_self db planId opId
    unfold removeParticipant
    rw [hres]
    simp [hcr]
  · unfold removeParticipant
    cases hres : findUserByKeyOrPhone db ukey uphone with
    | error e =>
      intro hcontra
      injection hcontra with h1
      have hk := findUserByKeyOrPhone_error_kind db ukey uphone e hres
      rw [h1] at hk
      simp at hk
    | ok tuser =>
      by_cases hid : tuser.id = opId
      · have hcr : canRemoveMember db planId opId tuser.id = false := by
          rw [hid]; exact canRemoveMember_self db planId opId
        simp [hcr]
      · by_cases hcr : canRemoveMember db planId opId tuser.id = true
        · cases hfp : findParticipant db.participants planId tuser.id with
          | none => simp [hcr, hid, hfp]
          | some participant =>
            by_cases hrole : participant.role = ParticipantRole.owner <;>
              simp [hcr, hid, hfp, hrole]
        · rw [Bool.not_eq_true] at hcr
          simp [hcr]

/-- C9 (witness): admin 2 of plan 10 attempting to remove themselves is
denied with the permission `Forbidden`, not the self-removal `Conflict`. -/
theorem removeParticipant_never_self_witness :
    removeParticipant exDB 10 (some "k2") none 2 =
      Except.error
        ⟨ErrKind.forbidden, "You do not have permission to remove this participant"⟩ :=
  (removeParticipant_never_self exDB 10 (some "k2") none 2).2.1
    { id := 2, user_key := some "k2", phone := none } rfl rfl

/-- C8 (witness): in the concrete database, admin 2 inviting user 4 as
`admin` is denied, while owner 1 inviting user 4 as `owner` succeeds. -/
theorem inviteParticipant_elevation_witness :
    inviteParticipant exDB 10 2 (some "k4") none (some ParticipantRole.admin) =
      Except.error ⟨ErrKind.forbidden, "Only owner can invite admin or owner"⟩ ∧
    ∃ db', inviteParticipant exDB 10 1 (some "k4") none (some ParticipantRole.owner) =
        Except.ok db' ∧
      getUserRole db' 10 4 = some ParticipantRole.owner := by
  constructor
  · exact (inviteParticipant_elevation exDB 10 2 (some "k4") none
      { id := 4, user_key := some "k4", phone := none } rfl rfl).1 rfl
      ParticipantRole.admin (Or.inl rfl)
  · exact (inviteParticipant_elevation exDB 10 1 (some "k4") none
      { id := 4, user_key := some "k4", phone := none } rfl rfl).2 rfl
      (some ParticipantRole.owner)

/-- Membership in one `Set.add` step. -/
theorem mem_setAdd {s : List String} {x c : String} :
    c ∈ setAdd s x ↔ c ∈ s ∨ c = x := by
  unfold setAdd
  by_cases h : x ∈ s
  · simp only [if_pos h]
    constructor
    · exact Or.inl
    · rintro (hc | rfl)
      · exact hc
      · exact h
  · simp [if_neg h]

/-- Membership after folding a whole list of codes into the set. -/
theorem mem_foldl_setAdd (l acc : List String) (c : String) :
    c ∈ l.foldl setAdd acc ↔ c ∈ acc ∨ c ∈ l := by
  induction l generalizing acc with
  | nil => simp
  | cons a l ih => simp [List.foldl_cons, ih, mem_setAdd, or_assoc]

/-- Membership after folding the permission codes of a list of user roles. -/
theorem mem_foldl_roleStep (db : AuthDB) (l : List UserRole) (acc : List String)
    (c : String) :
    c ∈ l.foldl (fun acc ur => (rolePermCodes db ur.role_id).foldl setAdd acc) acc ↔
      c ∈ acc ∨ ∃ ur ∈ l, c ∈ rolePermCodes db ur.role_id := by
  induction l generalizing acc with
  | nil => simp
  | cons a l ih => simp [List.foldl_cons, ih, mem_foldl_setAdd, or_assoc]

/-- C6: `getUserPermissions` is exactly the union over the user's roles of
each role's permission codes, is empty (without failing) for a user with no
roles, and is monotonic: adding a role row can only add elements. -/
theorem getUserPermissions_union (db : AuthDB) (userId : Nat) :
    (∀ c, c ∈ getUserPermissions db userId ↔
      ∃ ur ∈ db.userRoles, ur.user_id = userId ∧ c ∈ rolePermCodes db ur.role_id) ∧
    ((∀ ur ∈ db.userRoles, ur.user_id ≠ userId) → getUserPermissions db userId = []) ∧
    (∀ nr : UserRole, ∀ c, c ∈ getUserPermissions db userId →
      c ∈ getUserPermissions { db with userRoles := db.userRoles ++ [nr] } userId) := by
  have hchar : ∀ (rows : List UserRole) (c : String),
      (c ∈ (rows.filter (fun ur => ur.user_id == userId)).foldl
        (fun acc ur => (rolePermCodes db ur.role_id).foldl setAdd acc) [] ↔
      ∃ ur ∈ rows, ur.user_id = userId ∧ c ∈ rolePermCodes db ur.role_id) := by
    intro rows c
    rw [mem_foldl_roleStep]
    simp [List.mem_filter]
    constructor
    · rintro ⟨ur, ⟨hmem, hid⟩, hc⟩
      exact ⟨ur, hmem, hid, hc⟩
    · rintro ⟨ur, hmem, hid, hc⟩
      exact ⟨ur, ⟨hmem, hid⟩, hc⟩
  refine ⟨fun c => hchar db.userRoles c, ?_, ?_⟩
  · intro hnone
    unfold getUserPermissions
    have h0 : db.userRoles.filter (fun ur => ur.user_id == userId) = [] := by
      rw [List.filter_eq_nil_iff]
      intro ur hur
      simp [hnone ur hur]
    rw [h0]
    rfl
  · intro nr c hc
    have h1 := (hchar db.userRoles c).mp hc
    have h2 : ∃ ur ∈ db.userRoles ++ [nr], ur.user_id = userId ∧
        c ∈ rolePermCodes db ur.role_id := by
      obtain ⟨ur, hmem, hrest⟩ := h1
      exact ⟨ur, List.mem_append_left _ hmem, hrest⟩
    exact (hchar (db.userRoles ++ [nr]) c).mpr h2

/-- C6 (witness): user 3 holds no roles and gets the empty set; appending a
role row to user 2 preserves the permission `plan:read` they already had. -/
theorem getUserPermissions_union_witness :
    getUserPermissions exAuth 3 = [] ∧
    "plan:read" ∈ getUserPermissions
      { exAuth with userRoles := exAuth.userRoles ++ [{ user_id := 2, role_id := 1 }] }
      2 := by
  constructor
  · exact (getUserPermissions_union exAuth 3).2.1 (by decide)
  · exact (getUserPermissions_union exAuth 2).2.2 { user_id := 2, role_id := 1 }
      "plan:read" (by decide)

/-- When the requested codes are duplicate-free, the role table's codes are
unique, and every requested code resolves, the `findMany` result has exactly
as many rows as requested codes (the success condition of the services'
`roles.length !== roleCodes.length` check). -/
theorem filter_code_length (roles : List Role) (L : List String)
    (hL : L.Nodup) (hcodes : (roles.map Role.code).Nodup)
    (hres : ∀ c ∈ L, ∃ r ∈ roles, r.code = c) :
    (roles.filter (fun r => L.contains r.code)).length = L.length := by
  have hFnodup : ((roles.filter (fun r => L.contains r.code)).map Role.code).Nodup :=
    hcodes.sublist ((List.filter_sublist roles).map Role.code)
  have hmem : ∀ c, c ∈ (roles.filter (fun r => L.contains r.code)).map Role.code ↔
      c ∈ L := by
    intro c
    constructor
    · intro hc
      rw [List.mem_map] at hc
      obtain ⟨r, hrF, hrc⟩ := hc
      rw [List.mem_filter] at hrF
      have := hrF.2
      simp only [List.contains, List.elem_eq_mem, decide_eq_true_eq] at this
      rw [← hrc]
      exact this
    · intro hcL
      obtain ⟨r, hr, hrc⟩ := hres c hcL
      rw [List.mem_map]
      refine ⟨r, ?_, hrc⟩
      rw [List.mem_filter]
      refine ⟨hr, ?_⟩
      simp [hrc, hcL]
  have h1 : ((roles.filter (fun r => L.contains r.code)).map Role.code).toFinset =
      L.toFinset := by
    ext c
    simp only [List.mem_toFinset]
    exact hmem c
  have h2 := List.toFinset_card_of_nodup hFnodup
  have h3 := List.toFinset_card_of_nodup hL
  have h4 : ((roles.filter (fun r => L.contains r.code)).map Role.code).length =
      L.length := by
    rw [← h2, ← h3, h1]
  simpa using h4

/-- When some requested code resolves to no role (and the other hypotheses of
`filter_code_length` hold), the `findMany` result is strictly shorter than
the request, so the services' length check fires. -/
theorem filter_code_length_ne (roles : List Role) (L : List String)
    (hL : L.Nodup) (hcodes : (roles.map Role.code).Nodup)
    (c0 : String) (hc0 : c0 ∈ L) (hmiss : ∀ r ∈ roles, r.code ≠ c0) :
    (roles.filter (fun r => L.contains r.code)).length ≠ L.length := by
  have hFnodup : ((roles.filter (fun r => L.contains r.code)).map Role.code).Nodup :=
    hcodes.sublist ((List.filter_sublist roles).map Role.code)
  have hsub : ((roles.filter (fun r => L.contains r.code)).map Role.code).toFinset ⊆
      L.toFinset := by
    intro c hc
    rw [List.mem_toFinset] at hc ⊢
    rw [List.mem_map] at hc
    obtain ⟨r, hrF, hrc⟩ := hc
    rw [List.mem_filter] at hrF
    have := hrF.2
    simp only [List.contains, List.elem_eq_mem, decide_eq_true_eq] at this
    rw [← hrc]
    exact this
  have hnotin : c0 ∉ ((roles.filter (fun r => L.contains r.code)).map Role.code).toFinset := by
    rw [List.mem_toFinset, List.mem_map]
    rintro ⟨r, hrF, hrc⟩
    rw [List.mem_filter] at hrF
    exact hmiss r hrF.1 hrc
  have hss : ((roles.filter (fun r => L.contains r.code)).map Role.code).toFinset ⊂
      L.toFinset :=
    (Finset.ssubset_iff_of_subset hsub).mpr ⟨c0, List.mem_toFinset.mpr hc0, hnotin⟩
  have hlt := Finset.card_lt_card hss
  rw [List.toFinset_card_of_nodup hFnodup, List.toFinset_card_of_nodup hL] at hlt
  rw [List.length_map] at hlt
  omega

/-- C3 (counterexample): with the duplicated list `["editor", "editor"]`
every code resolves, yet `_updateUserRolesByUserId` fails — with a
`NotFound` whose enumeration of missing codes is empty — because the
distinct resolved rows cannot match the request length. -/
theorem updateUserRoles_duplicate_counterexample :
    (∀ c ∈ ["editor", "editor"], ∃ r ∈ exAuth.roles, r.code = c) ∧
    updateUserRolesByUserId exAuth 1 ["editor", "editor"] =
      Except.error ⟨ErrKind.notFound, "Roles not found: "⟩ := by
  exact ⟨by decide, rfl⟩

/-- Rows kept by the delete step (those of other users) never survive the
filter for the updated user. -/
theorem filter_user_kept (l : List UserRole) (userId : Nat) :
    (l.filter (fun ur => !(ur.user_id == userId))).filter
      (fun ur => ur.user_id == userId) = [] := by
  rw [List.filter_filter]
  apply List.filter_eq_nil_iff.mpr
  intro a ha
  simp

/-- Rows inserted for the updated user all survive the filter for that user. -/
theorem filter_user_new (ids : List Nat) (userId : Nat) :
    (ids.map (fun roleId => ({ user_id := userId, role_id := roleId } : UserRole))).filter
      (fun ur => ur.user_id == userId) =
      ids.map (fun roleId => ({ user_id := userId, role_id := roleId } : UserRole)) := by
  apply List.filter_eq_self.mpr
  intro a ha
  rw [List.mem_map] at ha
  obtain ⟨i, hi, rfl⟩ := ha
  simp

/-- C3 (amended): an empty list fails with `Conflict` before any mutation;
and when the requested codes are duplicate-free and every code resolves
(role codes being unique), the call succeeds and the user's resulting role
set is exactly the set of roles named by the list, independent of the prior
role set. -/
theorem updateUserRoles_replace (db : AuthDB) (userId : Nat) (roleCodes : List String) :
    (roleCodes = [] →
      updateUserRolesByUserId db userId roleCodes =
        Except.error ⟨ErrKind.conflict, "User must have at least one role"⟩) ∧
    (roleCodes ≠ [] → roleCodes.Nodup → (db.roles.map Role.code).Nodup →
      (∀ c ∈ roleCodes, ∃ r ∈ db.roles, r.code = c) →
      ∃ db' ret, updateUserRolesByUserId db userId roleCodes = Except.ok (db', ret) ∧
        ∀ rid, rid ∈ userRoleIds db' userId ↔
          ∃ r ∈ db.roles, r.code ∈ roleCodes ∧ r.id = rid) := by
  constructor
  · intro h
    subst h
    rfl
  · intro hne hnd hcodes hres
    have hlen := filter_code_length db.roles roleCodes hnd hcodes hres
    unfold updateUserRolesByUserId
    have hne0 : ¬ roleCodes.length = 0 := by
      simpa [List.length_eq_zero] using hne
    rw [if_neg hne0, if_neg (by simpa using hlen)]
    refine ⟨_, _, rfl, ?_⟩
    intro rid
    unfold userRoleIds
    simp only [List.filter_append, filter_user_kept, filter_user_new,
      List.nil_append, List.map_map]
    simp [List.mem_map, List.mem_filter, Function.comp]
    constructor
    · rintro ⟨a, ⟨⟨r, hr, rfl⟩, hau⟩, hrid⟩
      exact ⟨r, hr.1, hr.2, hrid⟩
    · rintro ⟨r, hr1, hr2, hr3⟩
      exact ⟨{ user_id := userId, role_id := r.id }, ⟨⟨r, ⟨hr1, hr2⟩, rfl⟩, rfl⟩, hr3⟩

/-- C3 (witness): replacing user 1's roles with `["editor", "viewer"]` in
the concrete database. -/
theorem updateUserRoles_replace_witness :
    updateUserRolesByUserId exAuth 1 [] =
      Except.error ⟨ErrKind.conflict, "User must have at least one role"⟩ ∧
    ∃ db' ret, updateUserRolesByUserId exAuth 1 ["editor", "viewer"] =
        Except.ok (db', ret) ∧
      ∀ rid, rid ∈ userRoleIds db' 1 ↔
        ∃ r ∈ exAuth.roles, r.code ∈ ["editor", "viewer"] ∧ r.id = rid := by
  constructor
  · exact (updateUserRoles_replace exAuth 1 []).1 rfl
  · exact (updateUserRoles_replace exAuth 1 ["editor", "viewer"]).2
      (by decide) (by decide) (by decide) (by decide)

/-- C4 (counterexample): with the duplicated list `["editor", "editor"]`
every code resolves and user 3 holds none of the named roles, yet
`_assignRolesByUserId` fails with a `NotFound` that enumerates no missing
code at all, instead of inserting the pair. -/
theorem assignRoles_duplicate_counterexample :
    (∀ c ∈ ["editor", "editor"], ∃ r ∈ exAuth.roles, r.code = c) ∧
    (∀ ur ∈ exAuth.userRoles, ur.user_id ≠ 3) ∧
    assignRolesByUserId exAuth 3 ["editor", "editor"] =
      Except.error ⟨ErrKind.notFound, "Roles not found: "⟩ := by
  exact ⟨by decide, by decide, rfl⟩

/-- C4 (amended): for a duplicate-free code list (role codes being unique):
an unresolvable code fails with `NotFound` enumerating exactly the
unresolvable codes and no row is inserted; all codes resolving with every
named role already held fails with `Conflict`; otherwise the call succeeds,
the user's role-id set afterwards is the prior set united with the named
roles, and the returned list is exactly the newly assigned roles. -/
theorem assignRoles_spec (db : AuthDB) (userId : Nat) (roleCodes : List String)
    (hnd : roleCodes.Nodup) (hcodes : (db.roles.map Role.code).Nodup) :
    ((∃ c ∈ roleCodes, ∀ r ∈ db.roles, r.code ≠ c) →
      assignRolesByUserId db userId roleCodes =
        Except.error ⟨ErrKind.notFound, "Roles not found: " ++ String.intercalate ", "
          (roleCodes.filter (fun c => decide (∀ r ∈ db.roles, r.code ≠ c)))⟩) ∧
    ((∀ c ∈ roleCodes, ∃ r ∈ db.roles, r.code = c) →
      (∀ r ∈ db.roles, r.code ∈ roleCodes → r.id ∈ userRoleIds db userId) →
      assignRolesByUserId db userId roleCodes =
        Except.error ⟨ErrKind.conflict, "All roles are already assigned to this user"⟩) ∧
    ((∀ c ∈ roleCodes, ∃ r ∈ db.roles, r.code = c) →
      (∃ r ∈ db.roles, r.code ∈ roleCodes ∧ r.id ∉ userRoleIds db userId) →
      ∃ db' ret, assignRolesByUserId db userId roleCodes = Except.ok (db', ret) ∧
        (∀ rid, rid ∈ userRoleIds db' userId ↔
          rid ∈ userRoleIds db userId ∨
            ∃ r ∈ db.roles, r.code ∈ roleCodes ∧ r.id = rid) ∧
        (∀ r, r ∈ ret ↔
          r ∈ db.roles ∧ r.code ∈ roleCodes ∧ r.id ∉ userRoleIds db userId)) := by
  refine ⟨?_, ?_, ?_⟩
  · rintro ⟨c0, hc0, hmiss⟩
    have hlne := filter_code_length_ne db.roles roleCodes hnd hcodes c0 hc0 hmiss
    simp only [assignRolesByUserId]
    rw [if_pos hlne]
    have hfilter : roleCodes.filter
        (fun c => !(((db.roles.filter
          (fun r => roleCodes.contains r.code)).map Role.code).contains c)) =
        roleCodes.filter (fun c => decide (∀ r ∈ db.roles, r.code ≠ c)) := by
      apply List.filter_congr
      intro c hc
      by_cases h : ∃ r ∈ db.roles, r.code = c
      · obtain ⟨r, hr, hrc⟩ := h
        have hmem : c ∈ (db.roles.filter
            (fun r => roleCodes.contains r.code)).map Role.code := by
          rw [List.mem_map]
          refine ⟨r, ?_, hrc⟩
          rw [List.mem_filter]
          exact ⟨hr, by simp [hrc, hc]⟩
        have hnall : ¬ (∀ r ∈ db.roles, r.code ≠ c) := fun hall => hall r hr hrc
        simp [hnall]
        exact ⟨r, ⟨hr, hrc ▸ hc⟩, hrc⟩
      · have hnm : c ∉ (db.roles.filter
            (fun r => roleCodes.contains r.code)).map Role.code := by
          rw [List.mem_map]
          rintro ⟨r, hrF, hrc⟩
          rw [List.mem_filter] at hrF
          exact h ⟨r, hrF.1, hrc⟩
        have hall : ∀ r ∈ db.roles, r.code ≠ c := fun r hr hrc => h ⟨r, hr, hrc⟩
        rw [decide_eq_true hall, Bool.not_eq_true']
        simp only [List.contains, List.elem_eq_mem]
        rw [decide_eq_false_iff_not]
        intro hmm
        apply hnm
        simpa using hmm
    rw [hfilter]
  · intro hres hheld
    have hlen := filter_code_length db.roles roleCodes hnd hcodes hres
    simp only [assignRolesByUserId]
    rw [if_neg (by simpa using hlen)]
    have hnil : ((db.roles.filter (fun r => roleCodes.contains r.code)).map
        Role.id).filter (fun i => !(userRoleIds db userId).contains i) = [] := by
      apply List.filter_eq_nil_iff.mpr
      intro i hi
      rw [List.mem_map] at hi
      obtain ⟨r, hrF, rfl⟩ := hi
      rw [List.mem_filter] at hrF
      have hcode : r.code ∈ roleCodes := by simpa using hrF.2
      have := hheld r hrF.1 hcode
      simp [this]
    rw [hnil]
    simp
  · intro hres hex
    have hlen := filter_code_length db.roles roleCodes hnd hcodes hres
    simp only [assignRolesByUserId]
    rw [if_neg (by simpa using hlen)]
    obtain ⟨r0, hr0, hr0c, hr0n⟩ := hex
    have hr0mem : r0.id ∈ ((db.roles.filter
        (fun r => roleCodes.contains r.code)).map Role.id).filter
        (fun i => !(userRoleIds db userId).contains i) := by
      rw [List.mem_filter]
      constructor
      · rw [List.mem_map]
        refine ⟨r0, ?_, rfl⟩
        rw [List.mem_filter]
        exact ⟨hr0, by simp [hr0c]⟩
      · simp [hr0n]
    rw [if_neg (by
      intro hzero
      rw [List.length_eq_zero] at hzero
      rw [hzero] at hr0mem
      exact absurd hr0mem (List.not_mem_nil _))]
    refine ⟨_, _, rfl, ?_, ?_⟩
    · intro rid
      unfold userRoleIds
      simp only [List.filter_append, List.map_append, List.mem_append,
        filter_user_new, List.map_map]
      constructor
      · rintro (h | h)
        · exact Or.inl h
        · rw [List.mem_map] at h
          obtain ⟨i, hi, hieq⟩ := h
          rw [List.mem_filter] at hi
          rw [List.mem_map] at hi
          obtain ⟨⟨r, hrF, rfl⟩, hnotheld⟩ := hi
          rw [List.mem_filter] at hrF
          right
          exact ⟨r, hrF.1, by simpa using hrF.2, hieq⟩
      · rintro (h | ⟨r, hr1, hr2, hr3⟩)
        · exact Or.inl h
        · by_cases hheld : r.id ∈ userRoleIds db userId
          · left
            unfold userRoleIds at hheld
            rw [← hr3]
            exact hheld
          · right
            rw [List.mem_map]
            refine ⟨r.id, ?_, hr3⟩
            rw [List.mem_filter]
            constructor
            · rw [List.mem_map]
              refine ⟨r, ?_, rfl⟩
              rw [List.mem_filter]
              exact ⟨hr1, by simp [hr2]⟩
            · unfold userRoleIds at hheld
              simpa using hheld
    · intro r
      constructor
      · intro hmem
        rw [List.mem_filter] at hmem
        obtain ⟨hrR, hcont⟩ := hmem
        rw [List.mem_filter] at hrR
        have hid : r.id ∈ ((db.roles.filter
            (fun r => roleCodes.contains r.code)).map Role.id).filter
            (fun i => !(userRoleIds db userId).contains i) := by
          simpa using hcont
        rw [List.mem_filter] at hid
        refine ⟨hrR.1, by simpa using hrR.2, ?_⟩
        have h2 := hid.2
        simp only [Bool.not_eq_true'] at h2
        simpa using h2
      · rintro ⟨hr1, hr2, hr3⟩
        rw [List.mem_filter]
        constructor
        · rw [List.mem_filter]
          exact ⟨hr1, by simp [hr2]⟩
        · have hid : r.id ∈ ((db.roles.filter
              (fun r => roleCodes.contains r.code)).map Role.id).filter
              (fun i => !(userRoleIds db userId).contains i) := by
            rw [List.mem_filter]
            constructor
            · rw [List.mem_map]
              refine ⟨r, ?_, rfl⟩
              rw [List.mem_filter]
              exact ⟨hr1, by simp [hr2]⟩
            · simpa using hr3
          simpa using hid

/-- C4 (witness): the spec's own scenario — `["admin", "nonexistent"]` fails
with a `NotFound` naming exactly `nonexistent`. -/
theorem assignRoles_spec_witness :
    assignRolesByUserId exAuth 1 ["admin", "nonexistent"] =
      Except.error ⟨ErrKind.notFound, "Roles not found: nonexistent"⟩ :=
  (assignRoles_spec exAuth 1 ["admin", "nonexistent"] (by decide) (by decide)).1
    ⟨"nonexistent", by decide, by decide⟩

/-- With unique role codes, looking a member role up by its own code finds
exactly that role. -/
theorem find?_code_of_nodup (roles : List Role) (r : Role)
    (hnodup : (roles.map Role.code).Nodup) (hr : r ∈ roles) :
    roles.find? (fun x => x.code == r.code) = some r := by
  induction roles with
  | nil => cases hr
  | cons a t ih =>
    rw [List.map_cons, List.nodup_cons] at hnodup
    rcases List.mem_cons.mp hr with rfl | hrt
    · simp
    · have hfalse : (a.code == r.code) = false := by
        simp only [beq_eq_false_iff_ne, ne_eq]
        intro heq
        apply hnodup.1
        rw [heq]
        exact List.mem_map_of_mem Role.code hrt
      rw [List.find?_cons, hfalse]
      exact ih hnodup.2 hrt

/-- Erasing one element removes at most one element from any filter. -/
theorem length_filter_eraseP {α : Type} (p q : α → Bool) (l : List α) :
    (List.filter p l).length - 1 ≤ (List.filter p (l.eraseP q)).length := by
  induction l with
  | nil => simp
  | cons a t ih =>
    by_cases hq : q a = true
    · rw [List.eraseP_cons_of_pos hq]
      by_cases hp : p a = true
      · simp only [List.filter_cons_of_pos hp, List.length_cons]
        omega
      · simp only [List.filter_cons_of_neg hp]
        omega
    · rw [List.eraseP_cons_of_neg (by simpa using hq)]
      by_cases hp : p a = true
      · simp only [List.filter_cons_of_pos hp, List.length_cons]
        omega
      · simp only [List.filter_cons_of_neg hp]
        omega

/-- C7: removing a user's only role fails with `Conflict` and changes
nothing; a successful `removeRole` requires a resolvable code, a held role
and at least two current roles, and leaves at least one role; successful
`assignRoles` and `replaceRoles` calls likewise never leave the user with
zero roles. -/
theorem removeRole_floor (db : AuthDB) (userId : Nat) (roleCode : String) :
    (∀ role : Role, role ∈ db.roles → role.code = roleCode →
      (db.roles.map Role.code).Nodup →
      (∃ ur ∈ db.userRoles, ur.user_id = userId ∧ ur.role_id = role.id) →
      (userRoleIds db userId).length = 1 →
      removeRoleByUserId db userId roleCode =
        Except.error ⟨ErrKind.conflict,
          "Cannot remove the last role. User must have at least one role."⟩) ∧
    (∀ db' ret, removeRoleByUserId db userId roleCode = Except.ok (db', ret) →
      db.roles.find? (fun r => r.code == roleCode) = some ret ∧
      (∃ ur ∈ db.userRoles, ur.user_id = userId ∧ ur.role_id = ret.id) ∧
      2 ≤ (userRoleIds db userId).length ∧
      1 ≤ (userRoleIds db' userId).length) ∧
    (∀ L db' ret, assignRolesByUserId db userId L = Except.ok (db', ret) →
      1 ≤ (userRoleIds db' userId).length) ∧
    (∀ L db' ret, updateUserRolesByUserId db userId L = Except.ok (db', ret) →
      1 ≤ (userRoleIds db' userId).length) := by
  refine ⟨?_, ?_, ?_, ?_⟩
  · rintro role hrole hcode hnodup ⟨ur, hur, huru, hurr⟩ hcount
    subst hcode
    have hfind := find?_code_of_nodup db.roles role hnodup hrole
    have hsome : (db.userRoles.find?
        (fun x => x.user_id == userId && x.role_id == role.id)).isSome := by
      rw [List.find?_isSome]
      exact ⟨ur, hur, by simp [huru, hurr]⟩
    obtain ⟨ur2, hur2⟩ := Option.isSome_iff_exists.mp hsome
    have hcnt : (db.userRoles.filter (fun x => x.user_id == userId)).length = 1 := by
      unfold userRoleIds at hcount
      simpa using hcount
    unfold removeRoleByUserId
    simp [hfind, hur2, hcnt]
  · intro db' ret hok
    unfold removeRoleByUserId at hok
    split at hok
    · exact absurd hok (by simp)
    · rename_i role hf
      split at hok
      · exact absurd hok (by simp)
      · rename_i ur hfu
        split at hok
        · exact absurd hok (by simp)
        · rename_i hc1
          injection hok with hpair
          rw [Prod.mk.injEq] at hpair
          obtain ⟨hdb', hret⟩ := hpair
          subst hdb'
          subst hret
          have hpred := List.find?_some hfu
          simp only [Bool.and_eq_true, beq_iff_eq] at hpred
          have hmem := List.mem_of_find?_eq_some hfu
          have hcge1 : 1 ≤ (db.userRoles.filter
              (fun x => x.user_id == userId)).length := by
            have hin : ur ∈ db.userRoles.filter (fun x => x.user_id == userId) := by
              rw [List.mem_filter]
              exact ⟨hmem, by simp [hpred.1]⟩
            exact List.length_pos_of_mem hin
          have hlen_eq : (userRoleIds db userId).length =
              (db.userRoles.filter (fun x => x.user_id == userId)).length := by
            unfold userRoleIds
            rw [List.length_map]
          refine ⟨hf, ⟨ur, hmem, hpred.1, hpred.2⟩, by omega, ?_⟩
          unfold userRoleIds
          have herase := length_filter_eraseP
            (fun x : UserRole => x.user_id == userId)
            (fun x : UserRole => x.user_id == userId && x.role_id == role.id)
            db.userRoles
          simp only [List.length_map]
          omega
  · intro L db' ret hok
    simp only [assignRolesByUserId] at hok
    by_cases h1 : (db.roles.filter (fun r => L.contains r.code)).length ≠ L.length
    · rw [if_pos h1] at hok
      exact absurd hok (by simp)
    · rw [if_neg h1] at hok
      by_cases h2 : (((db.roles.filter (fun r => L.contains r.code)).map
          Role.id).filter (fun i => !(userRoleIds db userId).contains i)).length = 0
      · rw [if_pos h2] at hok
        exact absurd hok (by simp)
      · rw [if_neg h2] at hok
        injection hok with hpair
        rw [Prod.mk.injEq] at hpair
        obtain ⟨hdb', hret⟩ := hpair
        subst hdb'
        unfold userRoleIds at h2 ⊢
        simp only [List.filter_append, List.map_append, List.length_append,
          filter_user_new, List.map_map, List.length_map]
        omega
  · intro L db' ret hok
    unfold updateUserRolesByUserId at hok
    by_cases h0 : L.length = 0
    · rw [if_pos h0] at hok
      exact absurd hok (by simp)
    · rw [if_neg h0] at hok
      by_cases h1 : (db.roles.filter (fun r => L.contains r.code)).length ≠ L.length
      · rw [if_pos h1] at hok
        exact absurd hok (by simp)
      · rw [if_neg h1] at hok
        injection hok with hpair
        rw [Prod.mk.injEq] at hpair
        obtain ⟨hdb', hret⟩ := hpair
        subst hdb'
        unfold userRoleIds
        simp only [List.filter_append, List.length_append, filter_user_kept,
          filter_user_new, List.length_nil, List.length_map]
        rw [Decidable.not_not] at h1
        omega

/-- C7 (witness): user 1 holds only the role `admin`; removing it is refused
with the last-role `Conflict`. -/
theorem removeRole_floor_witness :
    removeRoleByUserId exAuth 1 "admin" =
      Except.error ⟨ErrKind.conflict,
        "Cannot remove the last role. User must have at least one role."⟩ :=
  (removeRole_floor exAuth 1 "admin").1
    { id := 1, name := "Admin", code := "admin", is_system := true }
    (by decide) rfl (by decide) ⟨{ user_id := 1, role_id := 1 }, by decide, rfl, rfl⟩
    (by decide)

/-- Join rows kept by the delete step (those of other roles) never survive
the filter for the updated role. -/
theorem filter_role_kept (l : List RolePermission) (roleId : Nat) :
    (l.filter (fun rp => !(rp.role_id == roleId))).filter
      (fun rp => rp.role_id == roleId) = [] := by
  rw [List.filter_filter]
  apply List.filter_eq_nil_iff.mpr
  intro a ha
  simp

/-- Join rows inserted for the updated role all survive the filter for that
role. -/
theorem filter_role_new (pms : List Permission) (roleId : Nat) :
    (pms.map (fun pm =>
      ({ role_id := roleId, permission_id := pm.id } : RolePermission))).filter
      (fun rp => rp.role_id == roleId) =
      pms.map (fun pm =>
        ({ role_id := roleId, permission_id := pm.id } : RolePermission)) := by
  apply List.filter_eq_self.mpr
  intro a ha
  rw [List.mem_map] at ha
  obtain ⟨pm, hpm, rfl⟩ := ha
  simp

/-- C10: `updateRolePermissions` accepts unknown permission codes silently —
given the role exists it always succeeds and the role's resulting permission
set is exactly the subset of the requested codes that exists in the
`Permission` table — whereas `createRole` rejects the request with a
`BadRequest` enumerating exactly the unknown codes. -/
theorem updateRolePermissions_vs_createRole (db : AuthDB) (roleId : Nat)
    (L : List String) (name : String) (isSystem : Bool) :
    ((db.roles.find? (fun r => r.id == roleId)).isSome = true →
      ∃ db', updateRolePermissions db roleId L = Except.ok db' ∧
        ∀ pid, pid ∈ rolePermIds db' roleId ↔
          ∃ pm ∈ db.permissions, pm.code ∈ L ∧ pm.id = pid) ∧
    (db.roles.find? (fun r => r.name == name || r.code == lowerAscii name) = none →
      (∃ c ∈ L, ∀ pm ∈ db.permissions, pm.code ≠ c) →
      createRole db name L isSystem =
        Except.error ⟨ErrKind.badRequest, "Permissions not found: " ++
          String.intercalate ", "
            (L.filter (fun c => decide (∀ pm ∈ db.permissions, pm.code ≠ c)))⟩) := by
  constructor
  · intro hrole
    obtain ⟨role, hfr⟩ := Option.isSome_iff_exists.mp hrole
    unfold updateRolePermissions
    rw [hfr]
    refine ⟨_, rfl, ?_⟩
    intro pid
    unfold rolePermIds
    simp only [List.filter_append, filter_role_kept, filter_role_new,
      List.nil_append, List.map_map]
    simp [List.mem_map, List.mem_filter, Function.comp]
    constructor
    · rintro ⟨pm, hpm, hpid⟩
      exact ⟨pm, hpm.1, hpm.2, hpid⟩
    · rintro ⟨pm, hpm1, hpm2, hpid⟩
      exact ⟨pm, ⟨hpm1, hpm2⟩, hpid⟩
  · rintro hclash ⟨c0, hc0, hmiss⟩
    unfold createRole
    rw [hclash]
    have hc0in : c0 ∈ L.filter (fun c => !(((db.permissions.filter
        (fun pm => L.contains pm.code)).map Permission.code).contains c)) := by
      rw [List.mem_filter]
      refine ⟨hc0, ?_⟩
      rw [Bool.not_eq_true']
      simp only [List.contains, List.elem_eq_mem]
      rw [decide_eq_false_iff_not]
      rw [List.mem_map]
      rintro ⟨pm, hpmF, hpmc⟩
      rw [List.mem_filter] at hpmF
      exact hmiss pm hpmF.1 hpmc
    have hlen : (L.filter (fun c => !(((db.permissions.filter
        (fun pm => L.contains pm.code)).map Permission.code).contains c))).length ≠ 0 := by
      intro h0
      rw [List.length_eq_zero] at h0
      rw [h0] at hc0in
      exact absurd hc0in (List.not_mem_nil _)
    rw [if_pos hlen]
    have hfilter : L.filter (fun c => !(((db.permissions.filter
        (fun pm => L.contains pm.code)).map Permission.code).contains c)) =
        L.filter (fun c => decide (∀ pm ∈ db.permissions, pm.code ≠ c)) := by
      apply List.filter_congr
      intro c hc
      by_cases h : ∃ pm ∈ db.permissions, pm.code = c
      · obtain ⟨pm, hpm, hpmc⟩ := h
        have hnall : ¬ (∀ x ∈ db.permissions, x.code ≠ c) := fun hall => hall pm hpm hpmc
        simp [hnall]
        exact ⟨pm, ⟨hpm, hpmc ▸ hc⟩, hpmc⟩
      · have hall : ∀ x ∈ db.permissions, x.code ≠ c := fun x hx hxc => h ⟨x, hx, hxc⟩
        rw [decide_eq_true hall, Bool.not_eq_true']
        simp only [List.contains, List.elem_eq_mem]
        rw [decide_eq_false_iff_not]
        rw [List.mem_map]
        rintro ⟨pm, hpmF, hpmc⟩
        rw [List.mem_filter] at hpmF
        exact h ⟨pm, hpmF.1, hpmc⟩
    rw [hfilter]

/-- C10 (witness): updating role 2 with `["plan:read", "bogus"]` succeeds,
its permission set becoming exactly `{plan:read}`, while `createRole` with
the same list is rejected naming `bogus`. -/
theorem updateRolePermissions_vs_createRole_witness :
    (∃ db', updateRolePermissions exAuth 2 ["plan:read", "bogus"] = Except.ok db' ∧
      ∀ pid, pid ∈ rolePermIds db' 2 ↔
        ∃ pm ∈ exAuth.permissions, pm.code ∈ ["plan:read", "bogus"] ∧ pm.id = pid) ∧
    createRole exAuth "Temp" ["plan:read", "bogus"] false =
      Except.error ⟨ErrKind.badRequest, "Permissions not found: bogus"⟩ := by
  constructor
  · exact (updateRolePermissions_vs_createRole exAuth 2 ["plan:read", "bogus"]
      "Temp" false).1 rfl
  · exact (updateRolePermissions_vs_createRole exAuth 2 ["plan:read", "bogus"]
      "Temp" false).2 (by decide) ⟨"bogus", by decide, by decide⟩

end NestDemo
